import Mathlib

/-!
Verification of the spectrum analyzer stage (`Spectrum` in `src/spectrum.cpp`).

The embedding models the analyzer state and the `process` hot path as pure
functions over `List ℚ` (exact arithmetic standing for the sample values; the
claims checked here compare the code's arithmetic expressions against the
spec's identical expressions, so the comparison is structural).  The in-place
C++ loops are embedded as sequential `List.foldl` passes over `List.range`,
with index arithmetic performed modulo `2^64` exactly as `size_t` arithmetic
does in the source.  Out-of-range reads in the model default to `0` and
out-of-range writes are no-ops; a separate out-of-bounds predicate
(`shiftLoopOOB`) records which accesses of the source loops would leave the
buffer, since in C++ those accesses are undefined behavior.
-/

/-- Buffer length `n_bands` hardcoded in the source (`spectrum.hpp`): 8192,
the maximum PipeWire buffer size. -/
def n_bands : ℕ := 8192

/-- Modulus of `size_t` arithmetic (64-bit). -/
def sz : ℕ := 2 ^ 64

/-- C `size_t` subtraction `a - b` (well-defined for operands below `sz`):
wraps modulo `2^64` when `b > a`. -/
def szSub (a b : ℕ) : ℕ := (a + sz - b) % sz

/-- Analyzer state: the flags and buffers of the `Spectrum` class that the
claims are about.  `plan_valid` is a ghost flag tracking whether
`fftwf_destroy_plan` has run (true from construction until the destructor). -/
structure SpectrumState where
  bypass : Bool
  fftw_ready : Bool
  send_notifications : Bool
  plan_valid : Bool
  rate : ℕ
  in_mono : List ℚ
  real_input : List ℚ
  hann_window : List ℚ
deriving Repr, DecidableEq

/-- Model of `std::copy(src.begin(), src.end(), dst.begin())`: sequentially
overwrite the first `src.length` positions of `dst` with `src`. -/
def stdCopy (src dst : List ℚ) : List ℚ :=
  (List.range src.length).foldl (fun b n => b.set n (src.getD n 0)) dst

/-- Shift loop of `Spectrum::process` (spectrum.cpp:123-125):
`for (n = 0; n < n_bands - n_new_samples; n++) in_mono[n] = in_mono[n_new_samples + n];`
with `size_t` arithmetic for the bound and the read index. -/
def shiftLoop (M : ℕ) (buf : List ℚ) : List ℚ :=
  (List.range (szSub n_bands M)).foldl (fun b n => b.set n (b.getD ((M + n) % sz) 0)) buf

/-- Down-mix loop of `Spectrum::process` (spectrum.cpp:128-130):
`for (n = 0; n < n_new_samples; n++) in_mono[n_bands - n_new_samples + n] = 0.5F * (left_in[n] + right_in[n]);`. -/
def addNewLoop (M : ℕ) (left right : List ℚ) (buf : List ℚ) : List ℚ :=
  (List.range M).foldl
    (fun b n => b.set ((szSub n_bands M + n) % sz) ((1 / 2) * (left.getD n 0 + right.getD n 0))) buf

/-- Windowing loop of `Spectrum::process` (spectrum.cpp:132-135):
`for (n = 0; n < n_bands; n++) real_input[n] = in_mono[n] * hann_window[n];`. -/
def windowLoop (mono window ri : List ℚ) : List ℚ :=
  (List.range n_bands).foldl (fun b n => b.set n (mono.getD n 0 * window.getD n 0)) ri

/-- Result of one `process` call: the contents written to the output spans,
the post-state, and whether a deferred FFT task was handed to `util::idle_add`. -/
structure ProcessResult where
  left_out : List ℚ
  right_out : List ℚ
  state : SpectrumState
  scheduled : Bool
deriving Repr, DecidableEq

/-- `Spectrum::process` (spectrum.cpp:101-156).  The output spans' previous
contents are `left_out0`/`right_out0`; both are overwritten by the
unconditional pass-through copies.  On `bypass || !fftw_ready` the call
returns right after the copies.  Otherwise the mono buffer is shifted, the
down-mixed new samples are appended, the windowed product is written to
`real_input`, and a deferred FFT task is scheduled iff `send_notifications`. -/
def process (s : SpectrumState) (left_in right_in left_out0 right_out0 : List ℚ) :
    ProcessResult :=
  let lo := stdCopy left_in left_out0
  let ro := stdCopy right_in right_out0
  if s.bypass || !s.fftw_ready then
    ⟨lo, ro, s, false⟩
  else
    let M := left_in.length
    let mono2 := addNewLoop M left_in right_in (shiftLoop M s.in_mono)
    ⟨lo, ro,
     { s with
       in_mono := mono2,
       real_input := windowLoop mono2 s.hann_window s.real_input },
     s.send_notifications⟩

/-- Debug-build assertion `assert(n_new_samples <= n_bands)` (spectrum.cpp:117):
holds iff the chunk fits in the buffer.  In a debug build a false assertion
aborts; in a release build (`NDEBUG`) the check is compiled out. -/
def assertSpansOk (M : ℕ) : Bool := decide (M ≤ n_bands)

/-- Number of FFT output points: `output.size() = n_bands / 2 + 1`
(spectrum.cpp:48). -/
def outSize : ℕ := n_bands / 2 + 1

/-- Power computation in the deferred task (spectrum.cpp:145-151): for each
`i < output.size()`, `(re² + im²) / (output.size() * output.size())`.
`cx i` is the `i`-th complex FFT output bin `(re, im)`. -/
def computePower (cx : ℕ → ℚ × ℚ) : List ℚ :=
  (List.range outSize).map
    (fun i => ((cx i).1 * (cx i).1 + (cx i).2 * (cx i).2) / ((outSize : ℚ) * (outSize : ℚ)))

/-- Guard of the deferred task body (spectrum.cpp:139-143): the lambda given
to `util::idle_add` returns early iff `bypass` is set, and otherwise calls
`fftwf_execute(plan)`.  It reads no other flag and takes no lock. -/
def taskRunsFFT (s : SpectrumState) : Bool := !s.bypass

/-- Deferred task body (spectrum.cpp:138-154): if `bypass` it returns without
emitting; otherwise it executes the plan and emits
`power(rate, output.size(), output)`. -/
def idleTask (s : SpectrumState) (cx : ℕ → ℚ × ℚ) : Option (ℕ × ℕ × List ℚ) :=
  if s.bypass then none else some (s.rate, outSize, computePower cx)

/-- State change performed by `Spectrum::~Spectrum` (spectrum.cpp:70-86):
under the data mutex, clear `fftw_ready`, free the complex buffer and destroy
the plan (`plan_valid := false`). -/
def destructorUpdate (s : SpectrumState) : SpectrumState :=
  { s with fftw_ready := false, plan_valid := false }

/-- The `changed::show` settings callback (spectrum.cpp:60-67): under the data
mutex, `bypass = (g_settings_get_boolean(settings, key) == 0)`. -/
def showCallback (s : SpectrumState) (value : Bool) : SpectrumState :=
  { s with bypass := (value == false) }

/-- Scheduled-flags trace of a sequence of `process` calls, threading the
state: entry `i` records whether call `i` handed a task to `util::idle_add`. -/
def processSeqScheduled (s : SpectrumState) :
    List (List ℚ × List ℚ × List ℚ × List ℚ) → List Bool
  | [] => []
  | (l, r, lo, ro) :: rest =>
    let p := process s l r lo ro
    p.scheduled :: processSeqScheduled p.state rest

/-- Iteration count of the release-build shift loop: `n_bands - M` in
`size_t` arithmetic. -/
def shiftLoopBound (M : ℕ) : ℕ := szSub n_bands M

/-- The release-build shift loop performs an access outside the `n_bands`-element
mono buffer: some iteration `n` below the loop bound reads index
`(M + n) mod 2^64` or writes index `n` outside `[0, n_bands)`. -/
def shiftLoopOOB (M : ℕ) : Prop :=
  ∃ n, n < shiftLoopBound M ∧ (n_bands ≤ (M + n) % sz ∨ n_bands ≤ n)

/-- Release-build behavior asserted by the claim for a call of length `M`:
the shift loop runs `n_bands - min M n_bands` iterations (i.e. `M` is
effectively clamped to `min M n_bands`) and never leaves the buffer. -/
def releaseClampClaim (M : ℕ) : Prop :=
  shiftLoopBound M = n_bands - min M n_bands ∧ ¬ shiftLoopOOB M

/-! ### Generic lemmas about the sequential set-loops -/

/-- Any fold whose body is a single `List.set` preserves the buffer length. -/
lemma foldl_set_length (f : List ℚ → ℕ → ℕ) (g : List ℚ → ℕ → ℚ) :
    ∀ (l : List ℕ) (buf : List ℚ),
      (l.foldl (fun b n => b.set (f b n) (g b n)) buf).length = buf.length := by
  intro l
  induction l with
  | nil => intro buf; rfl
  | cons a t ih => intro buf; simpa using ih (buf.set (f buf a) (g buf a))

/-- Pointwise description of a loop `for n in [0,k): buf[n] := g n` whose
written values do not depend on the buffer. -/
lemma foldl_set_plain (g : ℕ → ℚ) (k : ℕ) (buf : List ℚ) (j : ℕ) :
    ((List.range k).foldl (fun b n => b.set n (g n)) buf)[j]? =
      if j < k ∧ j < buf.length then some (g j) else buf[j]? := by
  induction k with
  | zero => simp
  | succ k ih =>
    rw [List.range_succ, List.foldl_append]
    simp only [List.foldl_cons, List.foldl_nil]
    rw [List.getElem?_set]
    have hlen : ((List.range k).foldl (fun b n => b.set n (g n)) buf).length = buf.length :=
      foldl_set_length (fun _ n => n) (fun _ n => g n) _ buf
    by_cases hjk : k = j
    · subst hjk
      by_cases hl : k < buf.length
      · simp [hlen, hl]
      · rw [if_pos rfl, hlen, if_neg hl,
            if_neg (by omega : ¬ (k < k + 1 ∧ k < buf.length)),
            List.getElem?_eq_none (by omega)]
    · rw [if_neg hjk, ih]
      by_cases h1 : j < k ∧ j < buf.length
      · rw [if_pos h1, if_pos ⟨by omega, h1.2⟩]
      · rw [if_neg h1, if_neg (by omega)]

lemma sz_val : sz = 18446744073709551616 := by norm_num [sz]

/-- Pointwise description of a loop `for n in [0,k): buf[(off+n) % sz] := g n`
whose written values do not depend on the buffer, when the indices do not
wrap. -/
lemma foldl_set_offset (g : ℕ → ℚ) (off : ℕ) :
    ∀ (k : ℕ) (buf : List ℚ) (j : ℕ), off + k ≤ sz →
      ((List.range k).foldl (fun b n => b.set ((off + n) % sz) (g n)) buf)[j]? =
        if off ≤ j ∧ j < off + k ∧ j < buf.length then some (g (j - off)) else buf[j]? := by
  intro k
  induction k with
  | zero =>
    intro buf j hk
    simp only [List.range_zero, List.foldl_nil]
    rw [if_neg (by omega)]
  | succ k ih =>
    intro buf j hk
    rw [List.range_succ, List.foldl_append]
    simp only [List.foldl_cons, List.foldl_nil]
    have hoff : (off + k) % sz = off + k := Nat.mod_eq_of_lt (by omega)
    rw [hoff, List.getElem?_set]
    have hlen : ((List.range k).foldl (fun b n => b.set ((off + n) % sz) (g n)) buf).length
        = buf.length :=
      foldl_set_length (fun _ n => (off + n) % sz) (fun _ n => g n) (List.range k) buf
    by_cases hjk : off + k = j
    · subst hjk
      by_cases hl : off + k < buf.length
      · rw [if_pos rfl, hlen, if_pos hl, if_pos ⟨by omega, by omega, hl⟩,
            Nat.add_sub_cancel_left]
      · rw [if_pos rfl, hlen, if_neg hl, if_neg (by omega), List.getElem?_eq_none (by omega)]
    · rw [if_neg hjk, ih buf j (by omega)]
      by_cases h1 : off ≤ j ∧ j < off + k ∧ j < buf.length
      · rw [if_pos h1, if_pos ⟨h1.1, by omega, h1.2.2⟩]
      · rw [if_neg h1, if_neg (by omega)]

/-- Pointwise description of the first `k` iterations of the shift loop
`for n in [0,k): buf[n] := buf[(M+n) % sz]`, for chunks that fit the buffer:
every read happens at an index not yet overwritten, so position `j < k` ends
up holding the elements of the ORIGINAL buffer at `M + j`. -/
lemma shiftLoop_foldl (M : ℕ) :
    ∀ (k : ℕ) (buf : List ℚ) (j : ℕ), k + M ≤ n_bands →
      ((List.range k).foldl (fun b n => b.set n (b.getD ((M + n) % sz) 0)) buf)[j]? =
        if j < k ∧ j < buf.length then some (buf.getD (M + j) 0) else buf[j]? := by
  intro k
  induction k with
  | zero =>
    intro buf j hk
    simp only [List.range_zero, List.foldl_nil]
    rw [if_neg (by omega)]
  | succ k ih =>
    intro buf j hk
    rw [List.range_succ, List.foldl_append]
    simp only [List.foldl_cons, List.foldl_nil]
    have hmod : (M + k) % sz = M + k :=
      Nat.mod_eq_of_lt (by rw [sz_val]; simp only [n_bands] at hk; omega)
    rw [hmod]
    have hFk := ih buf (M + k) (by omega)
    rw [if_neg (by omega : ¬ (M + k < k ∧ M + k < buf.length))] at hFk
    have hgetD : ((List.range k).foldl
        (fun b n => b.set n (b.getD ((M + n) % sz) 0)) buf).getD (M + k) 0
        = buf.getD (M + k) 0 := by
      rw [List.getD_eq_getElem?_getD, hFk, List.getD_eq_getElem?_getD]
    rw [hgetD, List.getElem?_set]
    have hlen : ((List.range k).foldl
        (fun b n => b.set n (b.getD ((M + n) % sz) 0)) buf).length = buf.length :=
      foldl_set_length (fun _ n => n) (fun b n => b.getD ((M + n) % sz) 0) (List.range k) buf
    by_cases hjk : k = j
    · subst hjk
      by_cases hl : k < buf.length
      · rw [if_pos rfl, hlen, if_pos hl, if_pos ⟨by omega, hl⟩]
      · rw [if_pos rfl, hlen, if_neg hl, if_neg (by omega), List.getElem?_eq_none (by omega)]
    · rw [if_neg hjk, ih buf j (by omega)]
      by_cases h1 : j < k ∧ j < buf.length
      · rw [if_pos h1, if_pos ⟨by omega, h1.2⟩]
      · rw [if_neg h1, if_neg (by omega)]

/-! ### Derived facts about the loops of `process` -/

lemma szSub_of_le (M : ℕ) (hM : M ≤ n_bands) : szSub n_bands M = n_bands - M := by
  simp only [szSub, sz_val, n_bands] at hM ⊢
  omega

/-- The pass-through copy leaves the output span equal to the input span when
their lengths agree. -/
lemma stdCopy_eq_self (src dst : List ℚ) (h : dst.length = src.length) :
    stdCopy src dst = src := by
  apply List.ext_getElem?
  intro j
  simp only [stdCopy]
  rw [foldl_set_plain]
  by_cases hj : j < src.length
  · rw [if_pos ⟨hj, by omega⟩, List.getD_eq_getElem?_getD, List.getElem?_eq_getElem hj]
    simp
  · have h1 : dst[j]? = none := List.getElem?_eq_none (by omega)
    have h2 : src[j]? = none := List.getElem?_eq_none (by omega)
    rw [if_neg (by omega), h1, h2]

lemma shiftLoop_length (M : ℕ) (buf : List ℚ) :
    (shiftLoop M buf).length = buf.length := by
  simp only [shiftLoop]
  exact foldl_set_length (fun _ n => n) (fun b n => b.getD ((M + n) % sz) 0) _ buf

lemma shiftLoop_getElem? (M : ℕ) (buf : List ℚ) (hM : M ≤ n_bands) (j : ℕ) :
    (shiftLoop M buf)[j]? =
      if j < n_bands - M ∧ j < buf.length then some (buf.getD (M + j) 0) else buf[j]? := by
  simp only [shiftLoop, szSub_of_le M hM]
  exact shiftLoop_foldl M (n_bands - M) buf j (by omega)

/-- Pointwise description of the mono buffer after the shift and down-mix
loops of one call of length `M ≤ n_bands` on a full-length buffer. -/
lemma mono_after_getElem? (M : ℕ) (l r buf : List ℚ) (hM : M ≤ n_bands)
    (hbuf : buf.length = n_bands) (j : ℕ) :
    (addNewLoop M l r (shiftLoop M buf))[j]? =
      if j < n_bands - M then some (buf.getD (M + j) 0)
      else if j < n_bands then
        some ((1 / 2) * (l.getD (j - (n_bands - M)) 0 + r.getD (j - (n_bands - M)) 0))
      else none := by
  have hslen : (shiftLoop M buf).length = n_bands := by rw [shiftLoop_length, hbuf]
  simp only [addNewLoop, szSub_of_le M hM]
  rw [foldl_set_offset (fun n => (1 / 2) * (l.getD n 0 + r.getD n 0)) (n_bands - M) M
        (shiftLoop M buf) j (by rw [sz_val]; simp only [n_bands] at hM ⊢; omega)]
  rw [hslen, shiftLoop_getElem? M buf hM j]
  by_cases h1 : j < n_bands - M
  · rw [if_neg (by omega), if_pos ⟨h1, by omega⟩, if_pos h1]
  · by_cases h2 : j < n_bands
    · rw [if_pos ⟨by omega, by omega, h2⟩, if_neg h1, if_pos h2]
    · have h3 : buf[j]? = none := List.getElem?_eq_none (by omega)
      rw [if_neg (by omega), if_neg (by omega), h3, if_neg h1, if_neg h2]

/-- Early-return path of `process` (spectrum.cpp:110-112): on `bypass` or
`!fftw_ready` the call performs only the pass-through copies. -/
lemma process_early (s : SpectrumState) (l r lo ro : List ℚ)
    (h : s.bypass = true ∨ s.fftw_ready = false) :
    process s l r lo ro = ⟨stdCopy l lo, stdCopy r ro, s, false⟩ := by
  rcases h with h | h <;> simp [process, h]

/-- Active path of `process`: the buffers are rewritten and a task is
scheduled iff `send_notifications`. -/
lemma process_active (s : SpectrumState) (l r lo ro : List ℚ)
    (hb : s.bypass = false) (hf : s.fftw_ready = true) :
    process s l r lo ro =
      ⟨stdCopy l lo, stdCopy r ro,
       { s with
         in_mono := addNewLoop l.length l r (shiftLoop l.length s.in_mono),
         real_input := windowLoop (addNewLoop l.length l r (shiftLoop l.length s.in_mono))
           s.hann_window s.real_input },
       s.send_notifications⟩ := by
  simp [process, hb, hf]

lemma addNewLoop_length (M : ℕ) (l r buf : List ℚ) :
    (addNewLoop M l r buf).length = buf.length := by
  simp only [addNewLoop]
  exact foldl_set_length (fun _ n => (szSub n_bands M + n) % sz)
    (fun _ n => (1 / 2) * (l.getD n 0 + r.getD n 0)) _ buf

/-! ### Claim theorems -/

/-- Claim C3: every `process` call ends with `left_out = left_in` and
`right_out = right_in` element-wise, for every value of the bypass flag and
also when `fftw_ready` is false (the pass-through copies at
spectrum.cpp:107-108 are unconditional). -/
theorem claim_c3_transparency (s : SpectrumState) (l r lo ro : List ℚ)
    (hlo : lo.length = l.length) (hro : ro.length = r.length) :
    (process s l r lo ro).left_out = l ∧ (process s l r lo ro).right_out = r := by
  by_cases h : s.bypass = true ∨ s.fftw_ready = false
  · rw [process_early s l r lo ro h]
    exact ⟨stdCopy_eq_self l lo hlo, stdCopy_eq_self r ro hro⟩
  · simp only [not_or, Bool.not_eq_true, Bool.not_eq_false] at h
    rw [process_active s l r lo ro h.1 h.2]
    exact ⟨stdCopy_eq_self l lo hlo, stdCopy_eq_self r ro hro⟩

/-- Witness for C3 at a concrete bypassed call. -/
theorem claim_c3_transparency_witness :
    ([(5 : ℚ), 6].length = [(1 : ℚ), 2].length) ∧
    ([(7 : ℚ), 8].length = [(3 : ℚ), 4].length) ∧
    ((process ⟨true, true, false, true, 44100, [], [], []⟩
        [1, 2] [3, 4] [5, 6] [7, 8]).left_out = [1, 2] ∧
     (process ⟨true, true, false, true, 44100, [], [], []⟩
        [1, 2] [3, 4] [5, 6] [7, 8]).right_out = [3, 4]) :=
  ⟨rfl, rfl,
   claim_c3_transparency ⟨true, true, false, true, 44100, [], [], []⟩
     [1, 2] [3, 4] [5, 6] [7, 8] rfl rfl⟩

/-- Claim C10: when `bypass` is set or `fftw_ready` is cleared at entry,
`process` returns right after the pass-through copies: the post-state (in
particular the mono buffer and `real_input`) is exactly the pre-state, and no
deferred task is scheduled. -/
theorem claim_c10_early_return (s : SpectrumState) (l r lo ro : List ℚ)
    (h : s.bypass = true ∨ s.fftw_ready = false) :
    (process s l r lo ro).state = s ∧
    (process s l r lo ro).scheduled = false ∧
    (process s l r lo ro).left_out = stdCopy l lo ∧
    (process s l r lo ro).right_out = stdCopy r ro := by
  rw [process_early s l r lo ro h]
  exact ⟨rfl, rfl, rfl, rfl⟩

/-- Witness for C10 at a concrete call with `fftw_ready = false`. -/
theorem claim_c10_early_return_witness :
    ((⟨false, false, true, true, 48000, [1], [2], [3]⟩ : SpectrumState).bypass = true ∨
     (⟨false, false, true, true, 48000, [1], [2], [3]⟩ : SpectrumState).fftw_ready = false) ∧
    ((process ⟨false, false, true, true, 48000, [1], [2], [3]⟩ [9] [8] [7] [6]).state =
        ⟨false, false, true, true, 48000, [1], [2], [3]⟩ ∧
     (process ⟨false, false, true, true, 48000, [1], [2], [3]⟩ [9] [8] [7] [6]).scheduled = false ∧
     (process ⟨false, false, true, true, 48000, [1], [2], [3]⟩ [9] [8] [7] [6]).left_out =
        stdCopy [9] [7] ∧
     (process ⟨false, false, true, true, 48000, [1], [2], [3]⟩ [9] [8] [7] [6]).right_out =
        stdCopy [8] [6]) :=
  ⟨Or.inr rfl,
   claim_c10_early_return ⟨false, false, true, true, 48000, [1], [2], [3]⟩
     [9] [8] [7] [6] (Or.inr rfl)⟩

/-- Claim C6: if `bypass` is set before a `process` call, that call returns
before `util::idle_add` (spectrum.cpp:110-112), so no `power` signal can be
emitted as a consequence of it; this holds across any finite sequence of such
calls. -/
theorem claim_c6_bypass_no_emission (s : SpectrumState)
    (calls : List (List ℚ × List ℚ × List ℚ × List ℚ)) (hb : s.bypass = true) :
    processSeqScheduled s calls = List.replicate calls.length false := by
  induction calls generalizing s with
  | nil => rfl
  | cons c rest ih =>
    obtain ⟨l, r, lo, ro⟩ := c
    simp only [processSeqScheduled]
    rw [process_early s l r lo ro (Or.inl hb)]
    simp only [List.length_cons, List.replicate_succ]
    exact congrArg (fun t => false :: t) (ih s hb)

/-- Witness for C6 across two concrete bypassed calls. -/
theorem claim_c6_bypass_no_emission_witness :
    (⟨true, true, true, true, 48000, [], [], []⟩ : SpectrumState).bypass = true ∧
    processSeqScheduled ⟨true, true, true, true, 48000, [], [], []⟩
      [([1], [2], [3], [4]), ([5], [6], [7], [8])] = List.replicate 2 false :=
  ⟨rfl,
   claim_c6_bypass_no_emission ⟨true, true, true, true, 48000, [], [], []⟩
     [([1], [2], [3], [4]), ([5], [6], [7], [8])] rfl⟩

/-- Claim C7: a non-bypassed `process` call with `post_messages`
(`send_notifications`) false still copies the inputs to the outputs and
updates the mono buffer and `real_input` exactly as when the flag is true,
but hands no task to `util::idle_add` (spectrum.cpp:137-155). -/
theorem claim_c7_post_messages_off (s : SpectrumState) (l r lo ro : List ℚ)
    (hb : s.bypass = false) (hf : s.fftw_ready = true)
    (hlo : lo.length = l.length) (hro : ro.length = r.length) :
    (process { s with send_notifications := false } l r lo ro).left_out = l ∧
    (process { s with send_notifications := false } l r lo ro).right_out = r ∧
    (process { s with send_notifications := false } l r lo ro).state.in_mono =
      (process { s with send_notifications := true } l r lo ro).state.in_mono ∧
    (process { s with send_notifications := false } l r lo ro).state.real_input =
      (process { s with send_notifications := true } l r lo ro).state.real_input ∧
    (process { s with send_notifications := false } l r lo ro).scheduled = false ∧
    (process { s with send_notifications := true } l r lo ro).scheduled = true := by
  have h1 := process_active { s with send_notifications := false } l r lo ro hb hf
  have h2 := process_active { s with send_notifications := true } l r lo ro hb hf
  rw [h1, h2]
  exact ⟨stdCopy_eq_self l lo hlo, stdCopy_eq_self r ro hro, rfl, rfl, rfl, rfl⟩

/-- Witness for C7 at a concrete call. -/
theorem claim_c7_post_messages_off_witness :
    (⟨false, true, true, true, 48000, [0], [0], [0]⟩ : SpectrumState).bypass = false ∧
    ([(3 : ℚ)].length = [(1 : ℚ)].length) ∧
    ((process { (⟨false, true, true, true, 48000, [0], [0], [0]⟩ : SpectrumState) with
        send_notifications := false } [1] [2] [3] [4]).left_out = [1] ∧
     (process { (⟨false, true, true, true, 48000, [0], [0], [0]⟩ : SpectrumState) with
        send_notifications := false } [1] [2] [3] [4]).right_out = [2] ∧
     (process { (⟨false, true, true, true, 48000, [0], [0], [0]⟩ : SpectrumState) with
        send_notifications := false } [1] [2] [3] [4]).state.in_mono =
       (process { (⟨false, true, true, true, 48000, [0], [0], [0]⟩ : SpectrumState) with
        send_notifications := true } [1] [2] [3] [4]).state.in_mono ∧
     (process { (⟨false, true, true, true, 48000, [0], [0], [0]⟩ : SpectrumState) with
        send_notifications := false } [1] [2] [3] [4]).state.real_input =
       (process { (⟨false, true, true, true, 48000, [0], [0], [0]⟩ : SpectrumState) with
        send_notifications := true } [1] [2] [3] [4]).state.real_input ∧
     (process { (⟨false, true, true, true, 48000, [0], [0], [0]⟩ : SpectrumState) with
        send_notifications := false } [1] [2] [3] [4]).scheduled = false ∧
     (process { (⟨false, true, true, true, 48000, [0], [0], [0]⟩ : SpectrumState) with
        send_notifications := true } [1] [2] [3] [4]).scheduled = true) :=
  ⟨rfl, rfl,
   claim_c7_post_messages_off ⟨false, true, true, true, 48000, [0], [0], [0]⟩
     [1] [2] [3] [4] rfl rfl rfl rfl⟩

/-- Claim C8: the `changed::show` callback sets `bypass` to the negation of
the boolean value of the key (under the data mutex, spectrum.cpp:63-65) and
changes no other analyzer state: the whole state update is exactly
`bypass := !value`. -/
theorem claim_c8_show_callback (s : SpectrumState) (v : Bool) :
    showCallback s v = { s with bypass := !v } := by
  cases v <;> rfl

/-- Claim C4: a non-bypassed `process` call with `M ≤ n_bands` leaves the mono
buffer of length `n_bands` whose first `n_bands − M` entries are the old
buffer shifted down by `M` and whose last `M` entries are the down-mixed new
samples `(1/2)·(left_in[k] + right_in[k])`. -/
theorem claim_c4_shift_and_recency (s : SpectrumState) (l r lo ro : List ℚ) (M : ℕ)
    (hb : s.bypass = false) (hf : s.fftw_ready = true)
    (hmono : s.in_mono.length = n_bands) (hl : l.length = M) (_hr : r.length = M)
    (hM : M ≤ n_bands) :
    (process s l r lo ro).state.in_mono.length = n_bands ∧
    (∀ k, k < n_bands - M →
      (process s l r lo ro).state.in_mono.getD k 0 = s.in_mono.getD (M + k) 0) ∧
    (∀ k, k < M →
      (process s l r lo ro).state.in_mono.getD (n_bands - M + k) 0 =
        (1 / 2) * (l.getD k 0 + r.getD k 0)) := by
  rw [process_active s l r lo ro hb hf]
  subst hl
  refine ⟨?_, ?_, ?_⟩
  · show (addNewLoop l.length l r (shiftLoop l.length s.in_mono)).length = n_bands
    rw [addNewLoop_length, shiftLoop_length, hmono]
  · intro k hk
    show (addNewLoop l.length l r (shiftLoop l.length s.in_mono)).getD k 0 = _
    rw [List.getD_eq_getElem?_getD,
        mono_after_getElem? l.length l r s.in_mono hM hmono k, if_pos hk]
    rfl
  · intro k hk
    show (addNewLoop l.length l r (shiftLoop l.length s.in_mono)).getD
      (n_bands - l.length + k) 0 = _
    rw [List.getD_eq_getElem?_getD,
        mono_after_getElem? l.length l r s.in_mono hM hmono (n_bands - l.length + k),
        if_neg (by omega), if_pos (by omega),
        show n_bands - l.length + k - (n_bands - l.length) = k by omega]
    rfl

/-- Witness for C4: a chunk of length 2 into an all-zero full-length buffer. -/
theorem claim_c4_shift_and_recency_witness :
    ((List.replicate 8192 (0 : ℚ)).length = n_bands) ∧ ((2 : ℕ) ≤ n_bands) ∧
    ((process ⟨false, true, true, true, 48000, List.replicate 8192 0, [], []⟩
        [1, 2] [3, 4] [] []).state.in_mono.length = n_bands ∧
     (∀ k, k < n_bands - 2 →
       (process ⟨false, true, true, true, 48000, List.replicate 8192 0, [], []⟩
         [1, 2] [3, 4] [] []).state.in_mono.getD k 0 =
           (List.replicate 8192 (0 : ℚ)).getD (2 + k) 0) ∧
     (∀ k, k < 2 →
       (process ⟨false, true, true, true, 48000, List.replicate 8192 0, [], []⟩
         [1, 2] [3, 4] [] []).state.in_mono.getD (n_bands - 2 + k) 0 =
           (1 / 2) * (([(1 : ℚ), 2]).getD k 0 + ([(3 : ℚ), 4]).getD k 0))) :=
  ⟨by rw [List.length_replicate]; rfl, by norm_num [n_bands],
   claim_c4_shift_and_recency ⟨false, true, true, true, 48000, List.replicate 8192 0, [], []⟩
     [1, 2] [3, 4] [] [] 2 rfl rfl (by rw [List.length_replicate]; rfl) rfl rfl
     (by norm_num [n_bands])⟩

/-- Claim C5: each executed FFT dispatch computes, for every bin
`i < n_bands/2 + 1`, the power `(re² + im²) / (n_bands/2 + 1)²` from the i-th
complex output bin, and the emitted spectrum has exactly `n_bands/2 + 1`
points (spectrum.cpp:145-153). -/
theorem claim_c5_power_formula (cx : ℕ → ℚ × ℚ) (i : ℕ) (hi : i < n_bands / 2 + 1) :
    (computePower cx).length = n_bands / 2 + 1 ∧
    (computePower cx).getD i 0 =
      ((cx i).1 ^ 2 + (cx i).2 ^ 2) / (((n_bands / 2 + 1 : ℕ) : ℚ)) ^ 2 := by
  constructor
  · simp [computePower, outSize]
  · have h1 : i < outSize := hi
    simp only [computePower, List.getD_eq_getElem?_getD, List.getElem?_map,
      List.getElem?_range h1]
    simp only [Option.map_some', Option.getD_some]
    rw [pow_two, pow_two, pow_two]
    rfl

/-- Witness for C5 at bin 0 of a constant complex output. -/
theorem claim_c5_power_formula_witness :
    ((0 : ℕ) < n_bands / 2 + 1) ∧
    ((computePower (fun _ => ((3 : ℚ), (4 : ℚ)))).length = n_bands / 2 + 1 ∧
     (computePower (fun _ => ((3 : ℚ), (4 : ℚ)))).getD 0 0 =
       (((fun _ => ((3 : ℚ), (4 : ℚ))) 0).1 ^ 2 + ((fun _ => ((3 : ℚ), (4 : ℚ))) 0).2 ^ 2) /
         (((n_bands / 2 + 1 : ℕ) : ℚ)) ^ 2) :=
  ⟨by norm_num [n_bands],
   claim_c5_power_formula (fun _ => ((3 : ℚ), (4 : ℚ))) 0 (by norm_num [n_bands])⟩

/-- Claim C1 counterexample: at `M = 9000 > n_bands` the release build does
NOT process `min(M, n_bands)` samples with the buffer intact: the `size_t`
loop bound `n_bands - M` wraps instead of being `n_bands - min M n_bands = 0`,
and the very first shift iteration reads the mono buffer at index
`9000 ≥ n_bands`, out of bounds. -/
theorem claim_c1_counterexample : ¬ releaseClampClaim 9000 := by
  intro h
  exact absurd h.1 (by decide)

/-- Claim C1 (amended): for every call of length `M > n_bands` (with
`M < 2^64`), the debug build aborts (the assertion `M ≤ n_bands` fails), and
the release build does not clamp: the `size_t` shift-loop bound wraps to
`2^64 − (M − n_bands)` and the loop accesses the mono buffer out of bounds,
so no uncorrupted-buffer guarantee exists (undefined behavior). -/
theorem claim_c1_oversize_no_clamp (M : ℕ) (h1 : n_bands < M) (h2 : M < sz) :
    assertSpansOk M = false ∧
    shiftLoopBound M = sz - (M - n_bands) ∧
    shiftLoopOOB M := by
  refine ⟨?_, ?_, 0, ?_, Or.inl ?_⟩
  · simp only [assertSpansOk, decide_eq_false_iff_not, not_le]
    exact h1
  · simp only [shiftLoopBound, szSub, sz_val, n_bands] at h1 h2 ⊢
    omega
  · simp only [shiftLoopBound, szSub, sz_val, n_bands] at h1 h2 ⊢
    omega
  · simp only [sz_val, n_bands] at h1 h2 ⊢
    omega

/-- Witness for the amended C1 at `M = 9000`. -/
theorem claim_c1_oversize_no_clamp_witness :
    n_bands < 9000 ∧ 9000 < sz ∧
    (assertSpansOk 9000 = false ∧
     shiftLoopBound 9000 = sz - (9000 - n_bands) ∧
     shiftLoopOOB 9000) :=
  ⟨by decide, by decide, claim_c1_oversize_no_clamp 9000 (by decide) (by decide)⟩

/-- Claim C2 (code-bug evidence): after the destructor has begun teardown
(`fftw_ready = false`, plan destroyed), the deferred task body still proceeds
to `fftwf_execute` whenever `bypass` is false, because its guard
(spectrum.cpp:139-141) checks only `bypass` — it never observes `fftw_ready`
and takes no mutex, contrary to the claim. -/
theorem claim_c2_task_ignores_fftw_ready :
    taskRunsFFT (destructorUpdate ⟨false, true, true, true, 48000, [], [], []⟩) = true ∧
    (destructorUpdate ⟨false, true, true, true, 48000, [], [], []⟩).fftw_ready = false ∧
    (destructorUpdate ⟨false, true, true, true, 48000, [], [], []⟩).plan_valid = false :=
  ⟨rfl, rfl, rfl⟩
